import Mathlib

/-!
# Verification of taskmanageUI against its specification

Shallow embedding, in Lean 4, of the task-grouping, calendar time-grid,
suggestion-analysis, chat-extraction, conversation-history and route-dispatch
logic of the `taskmanageUI` repository, together with theorems settling the
stated properties.

Conventions used throughout:
* JavaScript strings are modelled as Lean `String`; the JS `<`/`<=`/`>`
  comparison on strings (lexicographic by code unit) is modelled by the
  lexicographic `LinearOrder` on `String` — the two agree on the
  ASCII `YYYY-MM-DD` strings the code compares.
* JS truthiness of an optional string (`undefined`, empty string are falsy)
  is modelled by `jsStrFalsy` / `jsOptStr` on `Option String`.
* JS numbers appearing in the pixel-to-time math are modelled by `ℚ`
  (the values involved are far from the ranges where IEEE-754 rounding
  could influence a comparison or `Math.round`).
* External processes (the `gog` CLI and the AI CLI) are modelled as
  oracle parameters: the functions under verification receive the external
  call's result as an argument.
-/

namespace TaskManage

/-- JS falsiness of an optional string value: `undefined` and `''` are falsy. -/
def jsStrFalsy : Option String → Bool
  | none => true
  | some s => s == ""

/-- JS `x || undefined` on an optional string: a falsy value becomes `undefined`. -/
def jsOptStr (o : Option String) : Option String :=
  if jsStrFalsy o then none else o

/-! ## JS string primitives

The JS string operations the code relies on (`<`/`<=` comparison, `split`,
`toLowerCase`, `includes`) are modelled structurally over `String.data`
(`List Char`), which matches the JS semantics on the strings involved
(JS compares UTF-16 code units; Lean `Char`s are unicode scalars; the two
orders agree outside surrogate-pair territory, far from the ASCII dates and
Japanese keywords compared here). -/

/-- Lexicographic strict comparison of two character lists, one character at a
time — the JS `<` relation on strings. -/
def charListLt : List Char → List Char → Bool
  | [], [] => false
  | [], _ :: _ => true
  | _ :: _, [] => false
  | a :: as, b :: bs => if a < b then true else if b < a then false else charListLt as bs

/-- JS `a < b` on strings. -/
def jsStrLt (a b : String) : Bool := charListLt a.data b.data

/-- JS `a <= b` on strings (`a <= b` is exactly `!(b < a)` for strings). -/
def jsStrLe (a b : String) : Bool := ! charListLt b.data a.data

/-- JS `String.prototype.split` with a single-character separator, on
character lists.  `split` always returns a non-empty array; the empty string
yields `[""]`. -/
def splitOnChar (sep : Char) : List Char → List (List Char)
  | [] => [[]]
  | c :: cs =>
    let r := splitOnChar sep cs
    if c = sep then [] :: r
    else
      match r with
      | [] => [[c]]
      | h :: t => (c :: h) :: t

/-- JS `String.prototype.toLowerCase` (ASCII case mapping; the Japanese
keyword characters involved are unaffected by case mapping). -/
def jsToLowerCase (s : String) : String := String.mk (s.data.map Char.toLower)

/-- Prefix test on character lists (`needle` starts `hay`). -/
def charListStartsWith : List Char → List Char → Bool
  | _, [] => true
  | [], _ :: _ => false
  | h :: hs, n :: ns => h == n && charListStartsWith hs ns

/-- Substring containment on character lists. -/
def charListContains (hay needle : List Char) : Bool :=
  if charListStartsWith hay needle then true
  else
    match hay with
    | [] => false
    | _ :: t => charListContains t needle

/-- JS `String.prototype.includes`. -/
def jsIncludes (s sub : String) : Bool := charListContains s.data sub.data

/-! ### Order facts about the JS string comparison -/

theorem charListLt_irrefl : ∀ as : List Char, charListLt as as = false
  | [] => rfl
  | a :: as => by
    simp only [charListLt, lt_irrefl, if_false]
    exact charListLt_irrefl as

theorem charListLt_cons_iff {x y : Char} {xs ys : List Char} :
    charListLt (x :: xs) (y :: ys) = true ↔
      x < y ∨ (x = y ∧ charListLt xs ys = true) := by
  constructor
  · intro h
    simp only [charListLt] at h
    split_ifs at h with h1 h2
    · exact Or.inl h1
    · exact Or.inr ⟨le_antisymm (not_lt.mp h2) (not_lt.mp h1), h⟩
  · rintro (hlt | ⟨rfl, h⟩)
    · simp [charListLt, hlt]
    · simp [charListLt, h]

theorem charListLt_trans : ∀ {as bs cs : List Char},
    charListLt as bs = true → charListLt bs cs = true → charListLt as cs = true
  | [], [], _, h₁, _ => by simp [charListLt] at h₁
  | _ :: _, [], _, h₁, _ => by simp [charListLt] at h₁
  | _, _ :: _, [], _, h₂ => by simp [charListLt] at h₂
  | [], _ :: _, _ :: _, _, _ => rfl
  | a :: as, b :: bs, c :: cs, h₁, h₂ => by
    rcases charListLt_cons_iff.mp h₁ with hab | ⟨rfl, h₁'⟩ <;>
      rcases charListLt_cons_iff.mp h₂ with hbc | ⟨rfl, h₂'⟩
    · exact charListLt_cons_iff.mpr (Or.inl (lt_trans hab hbc))
    · exact charListLt_cons_iff.mpr (Or.inl hab)
    · exact charListLt_cons_iff.mpr (Or.inl hbc)
    · exact charListLt_cons_iff.mpr (Or.inr ⟨rfl, charListLt_trans h₁' h₂'⟩)

theorem charListLt_asymm {as bs : List Char}
    (h : charListLt as bs = true) : charListLt bs as = false := by
  by_contra hc
  rw [Bool.not_eq_false] at hc
  have := charListLt_trans h hc
  rw [charListLt_irrefl] at this
  exact Bool.false_ne_true this

theorem charListLt_ne {as bs : List Char}
    (h : charListLt as bs = true) : as ≠ bs := by
  rintro rfl
  rw [charListLt_irrefl] at h
  exact Bool.false_ne_true h

theorem jsStrLt_irrefl (s : String) : jsStrLt s s = false :=
  charListLt_irrefl s.data

theorem jsStrLt_trans {a b c : String}
    (h₁ : jsStrLt a b = true) (h₂ : jsStrLt b c = true) : jsStrLt a c = true :=
  charListLt_trans h₁ h₂

theorem jsStrLt_asymm {a b : String} (h : jsStrLt a b = true) :
    jsStrLt b a = false := charListLt_asymm h

theorem jsStrLt_ne {a b : String} (h : jsStrLt a b = true) : a ≠ b :=
  fun he => charListLt_ne h (congrArg String.data he)

/-! ## Calendar time-grid math (`src/src/components/CalendarView.tsx`)

`HOUR_HEIGHT = 60` pixels per hour; the grid spans 24 hours. -/

/-- JS `Math.round`: rounds half toward positive infinity. -/
def jsRound (q : ℚ) : ℤ := ⌊q + 1/2⌋

/-- JS `Math.floor` on a rational value. -/
def jsFloor (q : ℚ) : ℤ := ⌊q⌋

/-- JS `Math.max` on two (non-NaN) numbers. -/
def jsMax (a b : ℚ) : ℚ := if a < b then b else a

/-- JS `Math.min` on two (non-NaN) numbers. -/
def jsMin (a b : ℚ) : ℚ := if b < a then b else a

/-- `HOUR_HEIGHT` constant from `CalendarView.tsx` (pixels per hour). -/
def HOUR_HEIGHT : ℚ := 60

/-- Embedding of `getTimeFromY` (`CalendarView.tsx` lines 157–169), with the
grid-relative offset `y = clientY - rect.top` as input (the subtraction of
`rect.top` is performed by the caller-side geometry, not by the arithmetic
under verification).  Returns the `(hour, minute)` pair. -/
def getTimeFromY (y : ℚ) : ℤ × ℤ :=
  let totalMinutes : ℚ := jsMax 0 (jsMin (24 * 60 - 1) (y / HOUR_HEIGHT * 60))
  let snappedMinutes : ℤ := jsRound (totalMinutes / 15) * 15
  (jsFloor ((snappedMinutes : ℚ) / 60), snappedMinutes % 60)

/-- Drag-selection state from `CalendarView.tsx` (interface `DragSelection`). -/
structure DragSelection where
  startHour : ℕ
  startMinute : ℕ
  endHour : ℕ
  endMinute : ℕ
deriving DecidableEq, Repr

/-- Embedding of the interval computation of `handleMouseUp`
(`CalendarView.tsx` lines 195–221): returns `(minMinutes, finalEndMinutes)`,
the minutes-after-midnight of the `startTime`/`endTime` pair handed to
`onDragSelect`.  (`setHours(h, m, 0, 0)` on a copy of `baseDate` produces the
instant `h*60+m` minutes after that day's midnight, also when `h ≥ 24`, so
minutes-after-midnight faithfully represents the constructed `Date`s.) -/
def handleMouseUpInterval (sel : DragSelection) : ℕ × ℕ :=
  let startMinutes := sel.startHour * 60 + sel.startMinute
  let endMinutes := sel.endHour * 60 + sel.endMinute
  let p := if startMinutes ≤ endMinutes then (startMinutes, endMinutes)
           else (endMinutes, startMinutes)
  (p.1, max (p.1 + 15) p.2)

/-! ## Calendar dates

`Date` values manipulated day-wise (`setDate(getDate() ± k)` at a safe local
time) follow proleptic-Gregorian day arithmetic; `GDate` with
`nextDay`/`prevDay`/`addDays` embeds exactly that. -/

/-- A local calendar date, as produced by `getFullYear`/`getMonth`+1/`getDate`. -/
structure GDate where
  year : ℕ
  month : ℕ
  day : ℕ
deriving DecidableEq, Repr

/-- Gregorian leap-year rule. -/
def isLeapYear (y : ℕ) : Bool := (y % 4 == 0 && y % 100 != 0) || y % 400 == 0

/-- Number of days of month `m` of year `y`. -/
def daysInMonth (y m : ℕ) : ℕ :=
  if m = 2 then (if isLeapYear y then 29 else 28)
  else if m = 4 ∨ m = 6 ∨ m = 9 ∨ m = 11 then 30
  else 31

/-- The calendar day after `d` (the effect of `setDate(getDate() + 1)`). -/
def nextDay (d : GDate) : GDate :=
  if d.day < daysInMonth d.year d.month then ⟨d.year, d.month, d.day + 1⟩
  else if d.month < 12 then ⟨d.year, d.month + 1, 1⟩
  else ⟨d.year + 1, 1, 1⟩

/-- The calendar day before `d` (the effect of `setDate(getDate() - 1)`). -/
def prevDay (d : GDate) : GDate :=
  if 1 < d.day then ⟨d.year, d.month, d.day - 1⟩
  else if 1 < d.month then ⟨d.year, d.month - 1, daysInMonth d.year (d.month - 1)⟩
  else ⟨d.year - 1, 12, 31⟩

/-- `n` calendar days after `d` (the effect of `setDate(getDate() + n)`). -/
def addDays (n : ℕ) (d : GDate) : GDate := nextDay^[n] d

/-- JS `String(n).padStart(2, '0')`. -/
def pad2 (n : ℕ) : String := if n < 10 then "0" ++ toString n else toString n

/-- Embedding of `toLocalDateString` (`server/services/claude.ts`,
`server/services/suggestions.ts`) and of the `Date` branch of `toDateString`
(`src/components/TaskListColumn.tsx`): format a local date as `YYYY-MM-DD`. -/
def toLocalDateString (d : GDate) : String :=
  toString d.year ++ "-" ++ pad2 d.month ++ "-" ++ pad2 d.day

/-- **C2** (code bug witness).  The claim states that `getTimeFromY` always
returns an hour between 0 and 23, also at or beyond the bottom edge of the
grid.  The code clamps `totalMinutes` to at most `24*60 - 1 = 1439`, showing
that intent, but `Math.round(1439 / 15) * 15 = 1440` escapes the clamp: at
`y = 1439` (one pixel above the bottom edge, and any `y` beyond it gives the
same clamped value) the function returns hour 24, minute 0 — not a valid time
of day within the 24-hour grid. -/
theorem getTimeFromY_hour24_at_bottom_edge :
    getTimeFromY 1439 = (24, 0) ∧ ¬ (getTimeFromY 1439).1 ≤ 23 := by
  constructor
  · norm_num [getTimeFromY, jsRound, jsFloor, jsMax, jsMin, HOUR_HEIGHT]
  · norm_num [getTimeFromY, jsRound, jsFloor, jsMax, jsMin, HOUR_HEIGHT]

/-- **C3**: for every completed drag selection — upward or downward — the
`(startTime, endTime)` pair handed to `onDragSelect` (represented by the
minutes-after-midnight pair `handleMouseUpInterval sel`) satisfies
`startTime < endTime` with a duration of at least 15 minutes. -/
theorem handleMouseUp_interval_at_least_15min (sel : DragSelection) :
    (handleMouseUpInterval sel).1 < (handleMouseUpInterval sel).2 ∧
    (handleMouseUpInterval sel).1 + 15 ≤ (handleMouseUpInterval sel).2 := by
  unfold handleMouseUpInterval
  dsimp only
  split <;> dsimp only <;> omega

/-! ## Task grouping (`src/src/components/TaskListColumn.tsx`, lines 22–102) -/

/-- Task status in the external task service. -/
inductive TaskStatus
  | needsAction
  | completed
deriving DecidableEq, Repr

/-- A task, as mirrored from the external service (interface `Task` in
`src/types/index.ts`; only the fields `groupTasks` reads are carried). -/
structure Task where
  id : String
  title : String
  notes : Option String := none
  due : Option String := none
  completed : Option String := none
  status : TaskStatus
deriving DecidableEq, Repr

/-- The string branch of `toDateString` (`TaskListColumn.tsx` lines 23–32):
extract `YYYY-MM-DD` from an ISO string via `dateInput.split('T')[0]`. -/
def toDateString (s : String) : String :=
  String.mk ((splitOnChar 'T' s.data).headD [])

/-- Embedding of `isCompletedToday` (`TaskListColumn.tsx` lines 34–37).
`toDateString(new Date())` — today's local date — is passed in as `todayStr`;
a missing or empty `completed` timestamp is JS-falsy and yields `false`. -/
def isCompletedToday (todayStr : String) (t : Task) : Bool :=
  match t.completed with
  | none => false
  | some c => c != "" && toDateString c == todayStr

/-- The destination a single task is routed to by the loop body of
`groupTasks` (`TaskListColumn.tsx` lines 54–78); `dropped` is the
completed-before-today case, which lands in no group. -/
inductive Bucket
  | overdue
  | today
  | thisWeek
  | later
  | noDue
  | completedToday
  | dropped
deriving DecidableEq, Repr

/-- The `if`/`else` chain of the `groupTasks` loop body, deciding the bucket
of one task.  All date comparisons are JS string comparisons. -/
def classifyTask (todayStr weekEndStr : String) (t : Task) : Bucket :=
  if t.status = TaskStatus.completed then
    if isCompletedToday todayStr t then .completedToday else .dropped
  else
    match t.due with
    | none => .noDue
    | some dueRaw =>
      if dueRaw == "" then .noDue
      else
        let dueDateStr := toDateString dueRaw
        if jsStrLt dueDateStr todayStr then .overdue
        else if dueDateStr == todayStr then .today
        else if jsStrLe dueDateStr weekEndStr then .thisWeek
        else .later

/-- The six accumulator arrays of `groupTasks`. -/
structure TaskBuckets where
  overdue : List Task
  todayTasks : List Task
  thisWeek : List Task
  later : List Task
  noDue : List Task
  completedToday : List Task
deriving DecidableEq, Repr

/-- The bucket array a tag refers to (`dropped` pushes nowhere). -/
def bucketList (B : TaskBuckets) : Bucket → List Task
  | .overdue => B.overdue
  | .today => B.todayTasks
  | .thisWeek => B.thisWeek
  | .later => B.later
  | .noDue => B.noDue
  | .completedToday => B.completedToday
  | .dropped => []

/-- The `for` loop of `groupTasks`: route every task to its bucket, keeping
encounter order within each bucket. -/
def groupTasksLoop (todayStr weekEndStr : String) : List Task → TaskBuckets
  | [] => ⟨[], [], [], [], [], []⟩
  | t :: ts =>
    let B := groupTasksLoop todayStr weekEndStr ts
    match classifyTask todayStr weekEndStr t with
    | .overdue => { B with overdue := t :: B.overdue }
    | .today => { B with todayTasks := t :: B.todayTasks }
    | .thisWeek => { B with thisWeek := t :: B.thisWeek }
    | .later => { B with later := t :: B.later }
    | .noDue => { B with noDue := t :: B.noDue }
    | .completedToday => { B with completedToday := t :: B.completedToday }
    | .dropped => B

/-- A rendered task group (interface `TaskGroup`). -/
structure TaskGroup where
  label : String
  tasks : List Task
  className : String
deriving DecidableEq, Repr

/-- `toDateString(weekEndDate)` where `weekEndDate` is `now` plus 7 calendar
days (`weekEndDate.setDate(weekEndDate.getDate() + 7)`). -/
def weekEndString (now : GDate) : String := toLocalDateString (addDays 7 now)

/-- The bucket contents `groupTasks` computes for current date `now`. -/
def groupTasksBuckets (now : GDate) (tasks : List Task) : TaskBuckets :=
  groupTasksLoop (toLocalDateString now) (weekEndString now) tasks

/-- Full embedding of `groupTasks` (`TaskListColumn.tsx` lines 39–102):
`now` is the current local date; the week end is `now` plus 7 calendar days;
non-empty buckets are packaged into labelled groups in the source's order. -/
def groupTasks (now : GDate) (tasks : List Task) : List TaskGroup :=
  let B := groupTasksBuckets now tasks
  (if B.overdue.isEmpty then [] else
    [⟨"期限切れ", B.overdue, "border-red-200 bg-red-50"⟩]) ++
  (if B.todayTasks.isEmpty then [] else
    [⟨"今日", B.todayTasks, "border-sky-200 bg-sky-50"⟩]) ++
  (if B.thisWeek.isEmpty then [] else
    [⟨"今週", B.thisWeek, "border-cyan-200 bg-cyan-50"⟩]) ++
  (if B.later.isEmpty then [] else
    [⟨"それ以降", B.later, "border-gray-200 bg-gray-50"⟩]) ++
  (if B.noDue.isEmpty then [] else
    [⟨"期限なし", B.noDue, "border-gray-200 bg-white"⟩]) ++
  (if B.completedToday.isEmpty then [] else
    [⟨"今日完了", B.completedToday, "border-slate-200 bg-slate-50"⟩])

/-! ### The grouping is a partition of the incomplete tasks -/

theorem bucketList_groupTasksLoop (td we : String) (b : Bucket)
    (hb : b ≠ Bucket.dropped) (ts : List Task) :
    bucketList (groupTasksLoop td we ts) b =
      ts.filter (fun t => classifyTask td we t == b) := by
  induction ts with
  | nil => cases b <;> simp_all [groupTasksLoop, bucketList]
  | cons t ts ih =>
    rcases hc : classifyTask td we t <;> cases b <;>
      simp_all [groupTasksLoop, bucketList, List.filter_cons, hc]

theorem mem_bucket_iff (td we : String) (b : Bucket) (hb : b ≠ Bucket.dropped)
    (ts : List Task) (t : Task) :
    t ∈ bucketList (groupTasksLoop td we ts) b ↔
      t ∈ ts ∧ classifyTask td we t = b := by
  rw [bucketList_groupTasksLoop td we b hb ts]
  simp [List.mem_filter]

/-- `t` is a member of the `b` bucket and of no other bucket. -/
def exactlyInBucket (B : TaskBuckets) (t : Task) (b : Bucket) : Prop :=
  t ∈ bucketList B b ∧ ∀ b' : Bucket, b' ≠ b → t ∉ bucketList B b'

theorem exactlyInBucket_of_classify (td we : String) (ts : List Task)
    (t : Task) (b : Bucket) (ht : t ∈ ts) (hb : b ≠ Bucket.dropped)
    (hc : classifyTask td we t = b) :
    exactlyInBucket (groupTasksLoop td we ts) t b := by
  refine ⟨(mem_bucket_iff td we b hb ts t).mpr ⟨ht, hc⟩, ?_⟩
  intro b' hb' hmem
  by_cases hd : b' = Bucket.dropped
  · subst hd; simp [bucketList] at hmem
  · rw [mem_bucket_iff td we b' hd ts t] at hmem
    exact hb' (hmem.2.symm.trans hc)

/-- **C1**: with a fixed current date `now` (`D`), `groupTasks` partitions the
incomplete (`needsAction`) tasks: a task with a (non-empty) due date lands in
exactly one bucket — `overdue` when its `YYYY-MM-DD` due string is strictly
before `D`'s, `today` when equal, `thisWeek` when after `D` and at most
`D + 7` days, `later` when beyond `D + 7` days — and a task without a due
date lands exactly in the no-due bucket; in each case the task is in no other
bucket.  Date comparisons are JS string comparisons, and `hord` records that
the formatted week-end string does not precede the formatted current date
(true of the four-digit-year dates the application handles; string order and
date order agree there). -/
theorem groupTasks_partitions_incomplete
    (now : GDate) (tasks : List Task) (t : Task)
    (ht : t ∈ tasks) (hstatus : t.status = TaskStatus.needsAction)
    (hord : jsStrLe (toLocalDateString now) (weekEndString now) = true) :
    (t.due = none →
      exactlyInBucket (groupTasksBuckets now tasks) t Bucket.noDue) ∧
    (∀ ds, t.due = some ds → ds ≠ "" →
      ((jsStrLt (toDateString ds) (toLocalDateString now) = true →
          exactlyInBucket (groupTasksBuckets now tasks) t Bucket.overdue) ∧
       (toDateString ds = toLocalDateString now →
          exactlyInBucket (groupTasksBuckets now tasks) t Bucket.today) ∧
       (jsStrLt (toLocalDateString now) (toDateString ds) = true →
        jsStrLe (toDateString ds) (weekEndString now) = true →
          exactlyInBucket (groupTasksBuckets now tasks) t Bucket.thisWeek) ∧
       (jsStrLt (weekEndString now) (toDateString ds) = true →
          exactlyInBucket (groupTasksBuckets now tasks) t Bucket.later))) := by
  have hni : t.status = TaskStatus.completed ↔ False := by
    simp [hstatus]
  refine ⟨?_, ?_⟩
  · intro hdue
    exact exactlyInBucket_of_classify _ _ _ _ _ ht (by simp)
      (by simp [classifyTask, hni, hdue])
  · intro ds hdue hne
    have hbeq : (ds == "") = false := beq_eq_false_iff_ne.mpr hne
    refine ⟨?_, ?_, ?_, ?_⟩
    · intro hlt
      exact exactlyInBucket_of_classify _ _ _ _ _ ht (by simp)
        (by simp [classifyTask, hni, hdue, hbeq, hlt])
    · intro heq
      exact exactlyInBucket_of_classify _ _ _ _ _ ht (by simp)
        (by simp [classifyTask, hni, hdue, hbeq, heq, jsStrLt_irrefl])
    · intro h1 h2
      have hnlt : jsStrLt (toDateString ds) (toLocalDateString now) = false :=
        jsStrLt_asymm h1
      have hne2 : (toDateString ds == toLocalDateString now) = false :=
        beq_eq_false_iff_ne.mpr (jsStrLt_ne h1).symm
      exact exactlyInBucket_of_classify _ _ _ _ _ ht (by simp)
        (by simp [classifyTask, hni, hdue, hbeq, hnlt, hne2, h2])
    · intro h3
      have hweek : jsStrLt (weekEndString now) (toLocalDateString now) = false := by
        have := hord
        simp only [jsStrLe, Bool.not_eq_true'] at this
        exact this
      have hnlt : jsStrLt (toDateString ds) (toLocalDateString now) = false := by
        by_contra hc
        rw [Bool.not_eq_false] at hc
        have := jsStrLt_trans h3 hc
        rw [hweek] at this
        exact Bool.false_ne_true this
      have hne2 : (toDateString ds == toLocalDateString now) = false := by
        refine beq_eq_false_iff_ne.mpr ?_
        intro he
        rw [he] at h3
        rw [hweek] at h3
        exact Bool.false_ne_true h3
      have hnle : jsStrLe (toDateString ds) (weekEndString now) = false := by
        simp only [jsStrLe, Bool.not_eq_false']
        exact h3
      exact exactlyInBucket_of_classify _ _ _ _ _ ht (by simp)
        (by simp [classifyTask, hni, hdue, hbeq, hnlt, hne2, hnle])

/-- Witness for **C1**: on 2026-10-11, an incomplete task due
2026-10-15 lands exactly in the this-week bucket. -/
theorem groupTasks_partitions_incomplete_witness :
    jsStrLt (toLocalDateString ⟨2026, 10, 11⟩)
      (toDateString "2026-10-15T00:00:00Z") = true ∧
    exactlyInBucket
      (groupTasksBuckets ⟨2026, 10, 11⟩
        [{ id := "t0", title := "x", due := some "2026-10-15T00:00:00Z",
           status := TaskStatus.needsAction }])
      { id := "t0", title := "x", due := some "2026-10-15T00:00:00Z",
        status := TaskStatus.needsAction }
      Bucket.thisWeek :=
  ⟨by decide,
    ((groupTasks_partitions_incomplete ⟨2026, 10, 11⟩ _ _ (List.Mem.head _) rfl
        (by decide)).2 "2026-10-15T00:00:00Z" rfl (by decide)).2.2.1
      (by decide) (by decide)⟩

/-! ## Chat-to-action extraction (`server/services/claude.ts`) -/

/-- The five valid task actions (`type TaskAction`). -/
inductive TaskAction
  | add
  | update
  | delete
  | complete
  | uncomplete
deriving DecidableEq, Repr

/-- The `validActions.includes(claudeAction)` test together with the cast:
`some a` when the AI-proposed action string is one of the five valid actions. -/
def parseTaskAction : String → Option TaskAction
  | "add" => some .add
  | "update" => some .update
  | "delete" => some .delete
  | "complete" => some .complete
  | "uncomplete" => some .uncomplete
  | _ => none

/-- First keyword group of `inferActionFromMessage` (`claude.ts` lines
129–143): the lowercased message contains a complete-keyword. -/
def hasCompleteKeyword (msg : String) : Bool :=
  let lowerMsg := jsToLowerCase msg
  jsIncludes lowerMsg "完了" || jsIncludes lowerMsg "終わった" ||
    jsIncludes lowerMsg "できた" || jsIncludes lowerMsg "done"

/-- Second keyword group of `inferActionFromMessage`: a delete-keyword. -/
def hasDeleteKeyword (msg : String) : Bool :=
  let lowerMsg := jsToLowerCase msg
  jsIncludes lowerMsg "削除" || jsIncludes lowerMsg "消して" ||
    jsIncludes lowerMsg "いらない" || jsIncludes lowerMsg "やめる"

/-- Third keyword group of `inferActionFromMessage`: an uncomplete-keyword. -/
def hasUncompleteKeyword (msg : String) : Bool :=
  let lowerMsg := jsToLowerCase msg
  jsIncludes lowerMsg "未完了" || jsIncludes lowerMsg "やっぱりまだ"

/-- Embedding of `inferActionFromMessage` (`claude.ts` lines 129–143). -/
def inferActionFromMessage (msg claudeAction : String) : TaskAction :=
  if hasCompleteKeyword msg then .complete
  else if hasDeleteKeyword msg then .delete
  else if hasUncompleteKeyword msg then .uncomplete
  else
    match parseTaskAction claudeAction with
    | some a => a
    | none => .add

/-- An incomplete task passed to the extractor for context
(interface `ExistingTask`). -/
structure ExistingTask where
  id : String
  title : String
  due : Option String := none
  notes : Option String := none
  listId : String
deriving DecidableEq, Repr

/-- One entry of the `tasks` array scraped from the AI CLI's JSON output
(the untyped `t: any` of `claude.ts`). -/
structure RawTask where
  title : String
  due : Option String := none
  notes : Option String := none
  action : String
  existingTaskId : Option String := none
deriving DecidableEq, Repr

/-- A typed task action produced by the extractor (interface
`ExtractedTask`).  The synthetic `id` is `Date.now()`/`Math.random()`-based
entropy in the source; it is carried as a constant since no behaviour reads
it. -/
structure ExtractedTask where
  id : String
  title : String
  due : Option String := none
  notes : Option String := none
  action : TaskAction
  existingTaskId : Option String := none
  existingListId : Option String := none
deriving DecidableEq, Repr

/-- The extractor's reply (interface `ClaudeResponse`). -/
structure ClaudeResponse where
  response : String
  tasks : List ExtractedTask
deriving DecidableEq, Repr

/-- `findListId` helper of `extractTasksWithClaude`. -/
def findListId (existingTasks : List ExistingTask) (taskId : String) : Option String :=
  (existingTasks.find? (fun t => t.id == taskId)).map (fun t => t.listId)

/-- The four ways the AI CLI call can turn out, as seen by the code after
`execSync`: output whose first `{...}` match parses to an object, output
whose first `[...]` match parses to an array, output with neither, and a
thrown error (non-zero exit, timeout).  The parsed payload is carried
directly; prompt construction and regex scraping live outside the logic
under verification. -/
inductive ClaudeOutput
  | jsonObject (response : Option String) (tasks : List RawTask)
  | jsonArray (tasks : List RawTask)
  | noJson
  | cliError
deriving DecidableEq, Repr

/-- The raw task list the scraped output carries (`parsed.tasks || []`,
`parsed`, or none). -/
def rawTasksOf : ClaudeOutput → List RawTask
  | .jsonObject _ ts => ts
  | .jsonArray ts => ts
  | .noJson => []
  | .cliError => []

/-- The per-task mapping of the object-output path of
`extractTasksWithClaude` (`claude.ts` lines 148–158). -/
def mkExtractedTask (userMessage : String) (existingTasks : List ExistingTask)
    (t : RawTask) : ExtractedTask :=
  { id := "task-",
    title := t.title,
    due := jsOptStr t.due,
    notes := jsOptStr t.notes,
    action := inferActionFromMessage userMessage t.action,
    existingTaskId := jsOptStr t.existingTaskId,
    existingListId :=
      if jsStrFalsy t.existingTaskId then none
      else findListId existingTasks (t.existingTaskId.getD "") }

/-- The per-task mapping of the array-output path (`claude.ts` lines
171–178); identical except that `notes` is not populated. -/
def mkExtractedTaskFromArray (userMessage : String)
    (existingTasks : List ExistingTask) (t : RawTask) : ExtractedTask :=
  { id := "task-",
    title := t.title,
    due := jsOptStr t.due,
    notes := none,
    action := inferActionFromMessage userMessage t.action,
    existingTaskId := jsOptStr t.existingTaskId,
    existingListId :=
      if jsStrFalsy t.existingTaskId then none
      else findListId existingTasks (t.existingTaskId.getD "") }

/-- The ` (期限: ...)` suffix of one listed task (JS `${t.due ? ... : ''}`). -/
def dueSuffix : Option String → String
  | some d => if d == "" then "" else " (期限: " ++ d ++ ")"
  | none => ""

/-- Embedding of `formatTaskResponse` (`claude.ts` lines 203–236);
`Object.entries` iterates the record in insertion order
add/update/delete/complete/uncomplete. -/
def formatTaskResponse (tasks : List ExtractedTask) : String :=
  if tasks.length = 0 then "お手伝いできることがあれば教えてください！"
  else
    let entries : List (TaskAction × String) :=
      [(.add, "追加"), (.update, "更新"), (.delete, "削除"),
       (.complete, "完了"), (.uncomplete, "未完了に戻す")]
    let response := entries.foldl (fun response entry =>
      let items := tasks.filter (fun t => t.action == entry.1)
      if 0 < items.length then
        let response := if response != "" then response ++ "\n" else response
        let response := response ++ "【" ++ entry.2 ++ "】\n"
        items.enum.foldl (fun r p =>
          r ++ toString (p.1 + 1) ++ ". " ++ p.2.title ++ dueSuffix p.2.due ++ "\n")
          response
      else response) ""
    response ++ "\n実行しますか？"

/-- Embedding of `extractTasksWithClaude` (`claude.ts` lines 37–201), as a
function of the AI CLI outcome. -/
def extractTasksWithClaude (userMessage : String)
    (existingTasks : List ExistingTask) (output : ClaudeOutput) :
    ClaudeResponse :=
  match output with
  | .jsonObject response rawTasks =>
    let tasks := rawTasks.map (mkExtractedTask userMessage existingTasks)
    { response :=
        match jsOptStr response with
        | some r => r
        | none => formatTaskResponse tasks,
      tasks := tasks }
  | .jsonArray rawTasks =>
    let tasks := rawTasks.map (mkExtractedTaskFromArray userMessage existingTasks)
    { response := formatTaskResponse tasks, tasks := tasks }
  | .noJson =>
    { response := "タスクを抽出できませんでした。もう少し具体的に教えてください。",
      tasks := [] }
  | .cliError =>
    { response := "AIとの通信でエラーが発生しました。", tasks := [] }

/-- **C5**: the local keyword override of `extractTasksWithClaude`.  When the
lowercased user message contains a complete-keyword (完了, 終わった, できた,
done), every returned task has action `complete`, whatever action the AI
proposed; when no complete-keyword but a delete-keyword (削除, 消して,
いらない, やめる) is present, every returned task has action `delete`; and
when no override keyword (including the uncomplete group 未完了,
やっぱりまだ) matches and the AI-proposed action string is not one of the
five valid actions, the action defaults to `add`. -/
theorem extractTasks_action_override
    (userMessage : String) (existingTasks : List ExistingTask)
    (output : ClaudeOutput) :
    (hasCompleteKeyword userMessage = true →
      ∀ t ∈ (extractTasksWithClaude userMessage existingTasks output).tasks,
        t.action = TaskAction.complete) ∧
    (hasCompleteKeyword userMessage = false →
     hasDeleteKeyword userMessage = true →
      ∀ t ∈ (extractTasksWithClaude userMessage existingTasks output).tasks,
        t.action = TaskAction.delete) ∧
    (hasCompleteKeyword userMessage = false →
     hasDeleteKeyword userMessage = false →
     hasUncompleteKeyword userMessage = false →
     (∀ rt ∈ rawTasksOf output, parseTaskAction rt.action = none) →
      ∀ t ∈ (extractTasksWithClaude userMessage existingTasks output).tasks,
        t.action = TaskAction.add) := by
  refine ⟨?_, ?_, ?_⟩
  · intro hc t htmem
    cases output <;>
      simp only [extractTasksWithClaude, List.mem_map] at htmem
    · obtain ⟨rt, _, rfl⟩ := htmem
      simp [mkExtractedTask, inferActionFromMessage, hc]
    · obtain ⟨rt, _, rfl⟩ := htmem
      simp [mkExtractedTaskFromArray, inferActionFromMessage, hc]
    · exact absurd htmem (by simp)
    · exact absurd htmem (by simp)
  · intro hc hd t htmem
    cases output <;>
      simp only [extractTasksWithClaude, List.mem_map] at htmem
    · obtain ⟨rt, _, rfl⟩ := htmem
      simp [mkExtractedTask, inferActionFromMessage, hc, hd]
    · obtain ⟨rt, _, rfl⟩ := htmem
      simp [mkExtractedTaskFromArray, inferActionFromMessage, hc, hd]
    · exact absurd htmem (by simp)
    · exact absurd htmem (by simp)
  · intro hc hd hu hparse t htmem
    cases output <;>
      simp only [extractTasksWithClaude, List.mem_map] at htmem
    case jsonObject resp rawTasks =>
      obtain ⟨rt, hrt, rfl⟩ := htmem
      have := hparse rt hrt
      simp [mkExtractedTask, inferActionFromMessage, hc, hd, hu, this]
    case jsonArray rawTasks =>
      obtain ⟨rt, hrt, rfl⟩ := htmem
      have := hparse rt hrt
      simp [mkExtractedTaskFromArray, inferActionFromMessage, hc, hd, hu, this]
    case noJson => exact absurd htmem (by simp)
    case cliError => exact absurd htmem (by simp)

/-- Witness for **C5**: the message "レポート終わった" contains a
complete-keyword, so a task the AI classified as `update` comes back with
action `complete`. -/
theorem extractTasks_action_override_witness :
    hasCompleteKeyword "レポート終わった" = true ∧
    ∀ t ∈ (extractTasksWithClaude "レポート終わった" []
        (ClaudeOutput.jsonObject (some "ok")
          [{ title := "レポート", action := "update" }])).tasks,
      t.action = TaskAction.complete :=
  ⟨by decide, (extractTasks_action_override "レポート終わった" [] _).1 (by decide)⟩

/-! ## Conversation history cap (`server/routes/suggestions.ts`, `/chat`) -/

/-- Message author in a conversation. -/
inductive ChatRole
  | user
  | assistant
deriving DecidableEq, Repr

/-- One entry of a session's history (interface `ConversationMessage`). -/
structure ConversationMessage where
  role : ChatRole
  content : String
deriving DecidableEq, Repr

/-- The history mutation a successful `/chat` request performs on its
session's list (`routes/suggestions.ts`): push the user message, push the
assistant response, then `splice(0, length - 20)` when the length exceeds
20 — keeping exactly the last 20 entries. -/
def chatHistoryStep (history : List ConversationMessage)
    (message response : String) : List ConversationMessage :=
  let h := history ++ [⟨.user, message⟩]
  let h := h ++ [⟨.assistant, response⟩]
  if 20 < h.length then h.drop (h.length - 20) else h

/-- One `/chat` request: a target session, the client message, and the
assistant response produced for it (the AI reply is external input). -/
structure ChatRequest where
  sessionId : String
  message : String
  response : String
deriving DecidableEq, Repr

/-- The effect of one `/chat` request on the `conversations` map (modelled
as a total function from session id to history; `get-or-create` of a missing
session yields `[]`).  An empty message is rejected with 400 before any
history mutation. -/
def chatRoute (convs : String → List ConversationMessage)
    (req : ChatRequest) : String → List ConversationMessage :=
  if req.message == "" then convs
  else fun sid =>
    if sid == req.sessionId then
      chatHistoryStep (convs req.sessionId) req.message req.response
    else convs sid

/-- The `conversations` map at process start: every session empty. -/
def initialConversations : String → List ConversationMessage := fun _ => []

/-- **C6**: after any sequence of `/chat` requests, no session's in-memory
history holds more than 20 messages; and whenever appending the user and
assistant messages would exceed 20 entries, the oldest entries are removed
so that exactly the last 20 remain. -/
theorem conversation_history_capped
    (reqs : List ChatRequest) (sid : String) :
    ((reqs.foldl chatRoute initialConversations) sid).length ≤ 20 ∧
    (∀ (h : List ConversationMessage) (m r : String),
      20 < h.length + 2 →
      chatHistoryStep h m r =
        (h ++ [(⟨ChatRole.user, m⟩ : ConversationMessage),
               (⟨ChatRole.assistant, r⟩ : ConversationMessage)]).drop
          (h.length + 2 - 20) ∧
      (chatHistoryStep h m r).length = 20) := by
  have hstep : ∀ (h : List ConversationMessage) (m r : String),
      (chatHistoryStep h m r).length ≤ 20 := by
    intro h m r
    unfold chatHistoryStep
    dsimp only
    split <;> simp_all
    omega
  constructor
  · have hinv : ∀ (rs : List ChatRequest)
        (f : String → List ConversationMessage),
        (∀ k, (f k).length ≤ 20) →
        ∀ k, ((rs.foldl chatRoute f) k).length ≤ 20 := by
      intro rs
      induction rs with
      | nil => intro f hf k; exact hf k
      | cons req rs ih =>
        intro f hf k
        refine ih (chatRoute f req) ?_ k
        intro k'
        unfold chatRoute
        split
        · exact hf k'
        · dsimp only
          split
          · exact hstep _ _ _
          · exact hf k'
    exact hinv reqs initialConversations (fun _ => Nat.zero_le _) sid
  · intro h m r hlen
    constructor
    · unfold chatHistoryStep
      dsimp only
      rw [if_pos (by simp; omega)]
      simp
    · unfold chatHistoryStep
      dsimp only
      rw [if_pos (by simp; omega)]
      simp
      omega

/-- Witness for **C6**: at a history of 20 messages, one more request keeps
exactly the last 20 (dropping the two oldest after the two pushes). -/
theorem conversation_history_capped_witness :
    20 < (List.replicate 20 (⟨ChatRole.user, "x"⟩ : ConversationMessage)).length + 2 ∧
    chatHistoryStep (List.replicate 20 ⟨ChatRole.user, "x"⟩) "m" "r" =
      ((List.replicate 20 ⟨ChatRole.user, "x"⟩ : List ConversationMessage) ++
        [(⟨ChatRole.user, "m"⟩ : ConversationMessage),
         (⟨ChatRole.assistant, "r"⟩ : ConversationMessage)]).drop
        ((List.replicate 20 (⟨ChatRole.user, "x"⟩ : ConversationMessage)).length + 2 - 20) ∧
    (chatHistoryStep (List.replicate 20 ⟨ChatRole.user, "x"⟩) "m" "r").length = 20 :=
  ⟨by decide,
    (conversation_history_capped [] "s").2
      (List.replicate 20 ⟨ChatRole.user, "x"⟩) "m" "r" (by decide)⟩

/-! ## Task PATCH route (`server/routes/tasks.ts`, lines 69–101) and the
`gog` commands it forwards to (`gog.ts`) -/

/-- The request body fields the PATCH handler destructures. -/
structure PatchBody where
  title : Option String := none
  notes : Option String := none
  due : Option String := none
  status : Option String := none
  listId : Option String := none
deriving DecidableEq, Repr

/-- The `gog` service call a PATCH request is dispatched to. -/
inductive GogTaskCall
  | complete (taskId : String) (listId : Option String)
  | uncomplete (taskId : String) (listId : Option String)
  | update (taskId : String) (title notes due : Option String)
      (listId : Option String)
deriving DecidableEq, Repr

/-- Embedding of the PATCH `/:taskId` handler's dispatch: `status ===
'completed'` routes to `completeTask` and returns; `status === 'needsAction'`
routes to `uncompleteTask` and returns; otherwise `updateTask` receives
`{title, notes, due}`.  In each branch the handler only forwards the fields
shown and answers with that call's result. -/
def patchTaskRoute (taskId : String) (body : PatchBody) : GogTaskCall :=
  if body.status = some "completed" then .complete taskId body.listId
  else if body.status = some "needsAction" then .uncomplete taskId body.listId
  else .update taskId body.title body.notes body.due body.listId

/-- `listId || await getDefaultTaskListId()` (`gog.ts`). -/
def resolveListId (defaultListId : String) (listId : Option String) : String :=
  match listId with
  | some l => if l == "" then defaultListId else l
  | none => defaultListId

/-- Command line built by `completeTask` (`gog.ts`): `gog tasks done`. -/
def completeTaskArgs (taskListId taskId : String) : List String :=
  ["tasks", "done", taskListId, taskId, "--json"]

/-- Command line built by `uncompleteTask` (`gog.ts`): `gog tasks undo`. -/
def uncompleteTaskArgs (taskListId taskId : String) : List String :=
  ["tasks", "undo", taskListId, taskId, "--json"]

/-- Command line built by `updateTask` (`gog.ts`): `gog tasks update` plus
`--title` when truthy, `--notes` when defined, `--due` when truthy. -/
def updateTaskArgs (taskListId taskId : String)
    (title notes due : Option String) : List String :=
  ["tasks", "update", taskListId, taskId, "--json"] ++
  (if jsStrFalsy title then [] else ["--title", title.getD ""]) ++
  (match notes with
   | some n => ["--notes", n]
   | none => []) ++
  (if jsStrFalsy due then [] else ["--due", due.getD ""])

/-- The `gog` argument list each dispatched call executes. -/
def gogTaskCallArgs (defaultListId : String) : GogTaskCall → List String
  | .complete taskId listId =>
    completeTaskArgs (resolveListId defaultListId listId) taskId
  | .uncomplete taskId listId =>
    uncompleteTaskArgs (resolveListId defaultListId listId) taskId
  | .update taskId title notes due listId =>
    updateTaskArgs (resolveListId defaultListId listId) taskId title notes due

/-- **C10**: a PATCH request whose body sets `status` to `completed`
(resp. `needsAction`) performs only the complete (resp. uncomplete)
operation: the dispatched call carries no title/notes/due, the executed
`gog` command is exactly `tasks done` (resp. `tasks undo`) with list and
task ids, and the dispatch is unchanged under any `title`, `notes`, `due`
values in the same body — those fields are ignored and never forwarded. -/
theorem patchTask_status_ignores_field_updates
    (taskId : String) (body : PatchBody) (defaultListId : String) :
    (body.status = some "completed" →
      patchTaskRoute taskId body = GogTaskCall.complete taskId body.listId ∧
      gogTaskCallArgs defaultListId (patchTaskRoute taskId body) =
        ["tasks", "done", resolveListId defaultListId body.listId, taskId,
          "--json"] ∧
      (∀ title notes due : Option String,
        patchTaskRoute taskId
          { body with title := title, notes := notes, due := due } =
        patchTaskRoute taskId body)) ∧
    (body.status = some "needsAction" →
      patchTaskRoute taskId body = GogTaskCall.uncomplete taskId body.listId ∧
      gogTaskCallArgs defaultListId (patchTaskRoute taskId body) =
        ["tasks", "undo", resolveListId defaultListId body.listId, taskId,
          "--json"] ∧
      (∀ title notes due : Option String,
        patchTaskRoute taskId
          { body with title := title, notes := notes, due := due } =
        patchTaskRoute taskId body)) := by
  constructor
  · intro hs
    refine ⟨?_, ?_, ?_⟩
    · simp [patchTaskRoute, hs]
    · simp [patchTaskRoute, hs, gogTaskCallArgs, completeTaskArgs]
    · intro title notes due
      simp [patchTaskRoute, hs]
  · intro hs
    have hne : body.status ≠ some "completed" := by
      rw [hs]; simp
    refine ⟨?_, ?_, ?_⟩
    · simp [patchTaskRoute, hs, hne]
    · simp [patchTaskRoute, hs, hne, gogTaskCallArgs, uncompleteTaskArgs]
    · intro title notes due
      simp [patchTaskRoute, hs, hne]

/-- Witness for **C10**: a body with `status = completed` and a title, notes
and due present dispatches to `gog tasks done` only. -/
theorem patchTask_status_ignores_field_updates_witness :
    (some "completed" : Option String) = some "completed" ∧
    patchTaskRoute "T1"
        { title := some "new title", notes := some "n", due := some "2026-01-01",
          status := some "completed", listId := some "L1" } =
      GogTaskCall.complete "T1" (some "L1") ∧
    gogTaskCallArgs "DL" (patchTaskRoute "T1"
        { title := some "new title", notes := some "n", due := some "2026-01-01",
          status := some "completed", listId := some "L1" }) =
      ["tasks", "done", "L1", "T1", "--json"] :=
  ⟨rfl,
    ((patchTask_status_ignores_field_updates "T1"
        { title := some "new title", notes := some "n", due := some "2026-01-01",
          status := some "completed", listId := some "L1" } "DL").1 rfl).1,
    by
      have h := ((patchTask_status_ignores_field_updates "T1"
        { title := some "new title", notes := some "n", due := some "2026-01-01",
          status := some "completed", listId := some "L1" } "DL").1 rfl).2.1
      rw [h]
      rfl⟩

/-! ## `gog` CLI wrapper and per-account fan-out (`gog.ts`)

`execGog` spawns the external CLI; its outcome (exit code, parsed JSON or
parse failure) reaches the functions below only through the uniform
`GogResult` shape, so the per-account CLI calls are oracle parameters. -/

/-- The uniform success/error result every `gog` wrapper returns
(interface `GogResult<T>`). -/
structure GogResult (T : Type) where
  success : Bool
  data : Option T := none
  error : Option String := none
deriving DecidableEq, Repr

/-- An email thread returned by `gog gmail search` (interface `EmailThread`;
`fromAddr` embeds the `from` field, which is a reserved word in Lean). -/
structure EmailThread where
  id : String
  date : String
  fromAddr : String
  subject : String
  labels : List String := []
  messageCount : ℕ := 1
  account : Option String := none
deriving DecidableEq, Repr

/-- The JSON shape of a `gog gmail search` reply (`threads` defaulted to `[]`
by the source's `|| []`). -/
structure EmailSearchResponse where
  threads : List EmailThread
  nextPageToken : Option String := none
deriving DecidableEq, Repr

/-- Start or end of a calendar event: a date-time or an all-day date. -/
structure EventTime where
  dateTime : Option String := none
  date : Option String := none
deriving DecidableEq, Repr

/-- A calendar event (interface `CalendarEvent`; `endTime` embeds the `end`
field, a reserved word in Lean). -/
structure CalendarEvent where
  id : String
  summary : String
  description : Option String := none
  start : EventTime
  endTime : EventTime := {}
  location : Option String := none
  htmlLink : Option String := none
  account : Option String := none
deriving DecidableEq, Repr

/-- The JSON shape of a `gog calendar events` reply. -/
structure CalendarEventsResponse where
  events : List CalendarEvent
deriving DecidableEq, Repr

/-- Embedding of the single-account `searchEmails` (`gog.ts`): on a
successful CLI result with data, slice to `maxResults` and tag each thread
with the account; otherwise pass the failure through. -/
def searchEmails (execResult : GogResult EmailSearchResponse)
    (maxResults : ℕ) (account : Option String) : GogResult (List EmailThread) :=
  match execResult.data, execResult.success with
  | some d, true =>
    { success := true,
      data := some ((d.threads.take maxResults).map
        (fun t => { t with account := account })) }
  | _, _ => { success := execResult.success, error := execResult.error }

/-- Embedding of the single-account `getCalendarEvents` (`gog.ts`): tag each
event with the account; no slicing. -/
def getCalendarEvents (execResult : GogResult CalendarEventsResponse)
    (account : Option String) : GogResult (List CalendarEvent) :=
  match execResult.data, execResult.success with
  | some d, true =>
    { success := true,
      data := some (d.events.map (fun e => { e with account := account })) }
  | _, _ => { success := execResult.success, error := execResult.error }

/-- The shared result-collection loop of `searchEmailsAllAccounts` and
`getCalendarEventsAllAccounts`: successful results with data contribute their
items, failed results with a (truthy) error string contribute the error. -/
def collectResults {T : Type} (results : List (GogResult (List T))) :
    List T × List String :=
  results.foldl (fun acc r =>
    if r.success && r.data.isSome then (acc.1 ++ r.data.getD [], acc.2)
    else
      match r.error with
      | some e => if e == "" then acc else (acc.1, acc.2 ++ [e])
      | none => acc) ([], [])

/-- Stable insertion into a sorted list — `x` goes before the first element
it compares less-or-equal to. -/
def insertSorted {α : Type} (le : α → α → Bool) (x : α) : List α → List α
  | [] => [x]
  | y :: ys => if le x y then x :: y :: ys else y :: insertSorted le x ys

/-- `Array.prototype.sort` with a comparator: modelled as a stable sort by
the comparator-induced `le` relation (`le a b` iff the comparator orders `a`
at or before `b`); `sort` is specified to be stable. -/
def jsSortBy {α : Type} (le : α → α → Bool) : List α → List α
  | [] => []
  | x :: xs => insertSorted le x (jsSortBy le xs)

/-- The `allThreads`/`errors` pair `searchEmailsAllAccounts` accumulates
from its per-account results. -/
def emailFanoutCollected (accounts : List String)
    (exec : String → GogResult EmailSearchResponse) (maxResults : ℕ) :
    List EmailThread × List String :=
  collectResults (accounts.map
    (fun account => searchEmails (exec account) maxResults (some account)))

/-- The `limited` list of `searchEmailsAllAccounts`: collected threads,
sorted newest-first by parsed date, sliced to `maxResults`. -/
def emailFanoutLimited (accounts : List String)
    (exec : String → GogResult EmailSearchResponse)
    (dateMs : String → ℤ) (maxResults : ℕ) : List EmailThread :=
  (jsSortBy (fun a b => decide (dateMs b.date ≤ dateMs a.date))
    (emailFanoutCollected accounts exec maxResults).1).take maxResults

/-- Embedding of `searchEmailsAllAccounts` (`gog.ts` lines 363–394):
one `searchEmails` per configured account (`exec` is the per-account CLI
call), successes merged, sorted newest-first by the parsed date (`dateMs`
is the host's `Date.parse`), sliced to `maxResults`; a failure is reported
only when nothing was collected and at least one error string accumulated. -/
def searchEmailsAllAccounts (accounts : List String)
    (exec : String → GogResult EmailSearchResponse)
    (dateMs : String → ℤ) (maxResults : ℕ) : GogResult (List EmailThread) :=
  if accounts.length = 0 then
    { success := false, error := some "No accounts configured" }
  else
    let collected := emailFanoutCollected accounts exec maxResults
    let limited := emailFanoutLimited accounts exec dateMs maxResults
    if limited.length = 0 ∧ collected.2.length ≠ 0 then
      { success := false, error := some (String.intercalate "; " collected.2) }
    else { success := true, data := some limited }

/-- The sort key of `getCalendarEventsAllAccounts` and the `eventDate` of
`analyzeCalendar`: `start.dateTime || start.date || ''`. -/
def eventStartKey (e : CalendarEvent) : String :=
  match jsOptStr e.start.dateTime with
  | some s => s
  | none =>
    match jsOptStr e.start.date with
    | some s => s
    | none => ""

/-- The `allEvents`/`errors` pair `getCalendarEventsAllAccounts` accumulates
from its per-account results. -/
def calendarFanoutCollected (accounts : List String)
    (exec : String → GogResult CalendarEventsResponse) :
    List CalendarEvent × List String :=
  collectResults (accounts.map
    (fun account => getCalendarEvents (exec account) (some account)))

/-- The sorted `allEvents` of `getCalendarEventsAllAccounts`. -/
def calendarFanoutSorted (accounts : List String)
    (exec : String → GogResult CalendarEventsResponse) : List CalendarEvent :=
  jsSortBy (fun a b => jsStrLe (eventStartKey a) (eventStartKey b))
    (calendarFanoutCollected accounts exec).1

/-- Embedding of `getCalendarEventsAllAccounts` (`gog.ts` lines 438–473):
one `getCalendarEvents` per account, successes merged and sorted by start
string (`localeCompare` on the ASCII ISO strings is plain string order);
failure only when nothing was collected and an error string accumulated. -/
def getCalendarEventsAllAccounts (accounts : List String)
    (exec : String → GogResult CalendarEventsResponse) :
    GogResult (List CalendarEvent) :=
  if accounts.length = 0 then
    { success := false, error := some "No accounts configured" }
  else
    let collected := calendarFanoutCollected accounts exec
    let allEvents := calendarFanoutSorted accounts exec
    if allEvents.length = 0 ∧ collected.2.length ≠ 0 then
      { success := false, error := some (String.intercalate "; " collected.2) }
    else { success := true, data := some allEvents }

/-! ## Suggestion analysis (`server/services/suggestions.ts`)

`analyzeWithClaude` builds a prompt and scrapes a
`{"suggestions": [...]}` JSON from the AI CLI's output, degrading to an
empty list on any failure; per analyzed item it is an oracle from the item
to the list of AI-proposed suggestions. -/

/-- One entry of the scraped `ClaudeSuggestionResponse.suggestions`. -/
structure AiSuggestion where
  title : String
  due : Option String := none
  notes : Option String := none
deriving DecidableEq, Repr

/-- Origin of a suggestion. -/
inductive SuggestionSource
  | gmail
  | calendar
deriving DecidableEq, Repr

/-- A task suggestion (interface `Suggestion`).  The synthetic `id` carries
the source kind and source id; its `Date.now()`/`Math.random()` entropy
suffix is dropped, as nothing reads it. -/
structure Suggestion where
  id : String
  source : SuggestionSource
  title : String
  due : Option String := none
  notes : Option String := none
  sourceId : String
  sourceTitle : String
  sourceFrom : Option String := none
  sourceDate : Option String := none
  sourceSnippet : Option String := none
deriving DecidableEq, Repr

/-- JS `s.substring(0, n)`. -/
def jsSubstring (s : String) (n : ℕ) : String := String.mk (s.data.take n)

/-- The suggestions one analyzed email contributes (loop body of
`analyzeEmails`, `suggestions.ts` lines 85–120): `detailSnippet`/`detailBody`
are the snippet and body recovered from `getEmailDetail` (already `''` when
that call failed), and `ai` is the AI CLI's response for the email's
prompt. -/
def emailSuggestionsFor (detailSnippet detailBody : EmailThread → String)
    (ai : EmailThread → List AiSuggestion) (email : EmailThread) :
    List Suggestion :=
  let snippet := detailSnippet email
  let body := jsSubstring (detailBody email) 500
  (ai email).map (fun s =>
    { id := "gmail-" ++ email.id,
      source := .gmail,
      title := s.title,
      due := jsOptStr s.due,
      notes := jsOptStr s.notes,
      sourceId := email.id,
      sourceTitle := email.subject,
      sourceFrom := some email.fromAddr,
      sourceDate := some email.date,
      sourceSnippet := some (if snippet == "" then jsSubstring body 200
                             else snippet) })

/-- Embedding of `analyzeEmails` (`suggestions.ts` lines 72–123), as a
function of the search result (`searchEmailsAllAccounts('is:unread ...', 10)`)
and the per-email oracles: failed or empty searches yield no suggestions,
and only `emails.slice(0, 5)` is iterated. -/
def analyzeEmails (searchResult : GogResult (List EmailThread))
    (detailSnippet detailBody : EmailThread → String)
    (ai : EmailThread → List AiSuggestion) : List Suggestion :=
  match searchResult.data, searchResult.success with
  | some emails, true =>
    if emails.length = 0 then []
    else (emails.take 5).flatMap
      (emailSuggestionsFor detailSnippet detailBody ai)
  | _, _ => []

/-- Decimal-digit parse of a character list (the numeric parse inside the
host's `new Date('YYYY-MM-DDT12:00:00')`). -/
def parseNatDigits (cs : List Char) : Option ℕ :=
  if cs.isEmpty then none
  else cs.foldl (fun acc c =>
    match acc with
    | some n => if c.isDigit then some (n * 10 + (c.toNat - 48)) else none
    | none => none) (some 0)

/-- Parse `YYYY-MM-DD` into a `GDate` — the date components the host's
`new Date(s + 'T12:00:00')` extracts from a well-formed date string. -/
def parseYMD (s : String) : Option GDate :=
  match splitOnChar '-' s.data with
  | [ys, ms, ds] =>
    match parseNatDigits ys, parseNatDigits ms, parseNatDigits ds with
    | some y, some m, some d => some ⟨y, m, d⟩
    | _, _, _ => none
  | _ => none

/-- `analyzeCalendar`'s day-before computation: `new Date(s + 'T12:00:00')`
(noon, avoiding timezone shifts), `setDate(getDate() - 1)`,
`toLocalDateString`.  An unparsable date propagates the host's
`Invalid Date` rendering (`NaN` components). -/
def dayBeforeString (s : String) : String :=
  match parseYMD s with
  | some d => toLocalDateString (prevDay d)
  | none => "NaN-NaN-NaN"

/-- The suggestion one AI response entry for a calendar event becomes (loop
body of `analyzeCalendar`, `suggestions.ts` lines 161–182): when the AI gave
no (truthy) due date and the event's `YYYY-MM-DD` date is strictly after
`today` (string comparison), the due date becomes the day before the event. -/
def calSuggestionOf (today : String) (event : CalendarEvent)
    (s : AiSuggestion) : Suggestion :=
  let eventDateStr := toDateString (eventStartKey event)
  let due := if jsStrFalsy s.due && jsStrLt today eventDateStr then
               some (dayBeforeString eventDateStr)
             else s.due
  { id := "cal-" ++ event.id,
    source := .calendar,
    title := s.title,
    due := jsOptStr due,
    notes := jsOptStr s.notes,
    sourceId := event.id,
    sourceTitle := event.summary,
    sourceDate := some eventDateStr,
    sourceSnippet := event.description.map (fun d => jsSubstring d 200) }

/-- Embedding of `analyzeCalendar` (`suggestions.ts` lines 125–185), as a
function of the events result (`getCalendarEventsAllAccounts(today, today+7d)`)
and the per-event AI oracle: failed or empty fetches yield no suggestions,
and only `events.slice(0, 5)` is iterated — every entry of an event's AI
response is pushed, with no per-event cap. -/
def analyzeCalendar (eventsResult : GogResult (List CalendarEvent))
    (ai : CalendarEvent → List AiSuggestion) (today : String) :
    List Suggestion :=
  match eventsResult.data, eventsResult.success with
  | some events, true =>
    if events.length = 0 then []
    else (events.take 5).flatMap
      (fun event => (ai event).map (calSuggestionOf today event))
  | _, _ => []

/-! ### Theorems about the suggestion pipeline and the fan-out -/

/-- **C4**: `analyzeEmails` and `analyzeCalendar` analyze at most the first 5
search results.  Truncating the fetched list to its first 5 elements does not
change the output (so items beyond the first 5 are never analyzed and the AI
oracle is never consulted on them), and every returned suggestion's
`sourceId` is the id of one of the first 5 items. -/
theorem analyze_at_most_first_five
    (searchResult : GogResult (List EmailThread))
    (dSnip dBody : EmailThread → String) (aiE : EmailThread → List AiSuggestion)
    (eventsResult : GogResult (List CalendarEvent))
    (aiC : CalendarEvent → List AiSuggestion) (today : String) :
    analyzeEmails searchResult dSnip dBody aiE =
      analyzeEmails { searchResult with data := searchResult.data.map (List.take 5) }
        dSnip dBody aiE ∧
    (∀ s ∈ analyzeEmails searchResult dSnip dBody aiE,
      ∃ e ∈ (searchResult.data.getD []).take 5, s.sourceId = e.id) ∧
    analyzeCalendar eventsResult aiC today =
      analyzeCalendar { eventsResult with data := eventsResult.data.map (List.take 5) }
        aiC today ∧
    (∀ s ∈ analyzeCalendar eventsResult aiC today,
      ∃ e ∈ (eventsResult.data.getD []).take 5, s.sourceId = e.id) := by
  refine ⟨?_, ?_, ?_, ?_⟩
  · rcases searchResult with ⟨succ, dat, err⟩
    rcases dat with _ | emails
    · rfl
    · rcases succ
      · rfl
      · simp only [analyzeEmails, Option.map_some]
        by_cases h : emails.length = 0
        · simp [h, List.length_take]
        · have h5 : ¬ (emails.take 5).length = 0 := by
            rw [List.length_take]; omega
          simp [h, h5, List.take_take]
  · intro s hs
    rcases searchResult with ⟨succ, dat, err⟩
    rcases dat with _ | emails
    · simp [analyzeEmails] at hs
    · rcases succ
      · simp [analyzeEmails] at hs
      · simp only [analyzeEmails] at hs
        split_ifs at hs with h
        · simp at hs
        · rw [List.mem_flatMap] at hs
          obtain ⟨e, he, hmem⟩ := hs
          simp only [emailSuggestionsFor, List.mem_map] at hmem
          obtain ⟨a, _, rfl⟩ := hmem
          exact ⟨e, he, rfl⟩
  · rcases eventsResult with ⟨succ, dat, err⟩
    rcases dat with _ | events
    · rfl
    · rcases succ
      · rfl
      · simp only [analyzeCalendar, Option.map_some]
        by_cases h : events.length = 0
        · simp [h, List.length_take]
        · have h5 : ¬ (events.take 5).length = 0 := by
            rw [List.length_take]; omega
          simp [h, h5, List.take_take]
  · intro s hs
    rcases eventsResult with ⟨succ, dat, err⟩
    rcases dat with _ | events
    · simp [analyzeCalendar] at hs
    · rcases succ
      · simp [analyzeCalendar] at hs
      · simp only [analyzeCalendar] at hs
        split_ifs at hs with h
        · simp at hs
        · rw [List.mem_flatMap] at hs
          obtain ⟨e, he, hmem⟩ := hs
          simp only [List.mem_map] at hmem
          obtain ⟨a, _, rfl⟩ := hmem
          exact ⟨e, he, rfl⟩

/-- A six-thread search result exercising the slice of `analyzeEmails`. -/
def sixThreadSearchResult : GogResult (List EmailThread) :=
  { success := true,
    data := some
      [{ id := "m1", date := "d", fromAddr := "f", subject := "s1" },
       { id := "m2", date := "d", fromAddr := "f", subject := "s2" },
       { id := "m3", date := "d", fromAddr := "f", subject := "s3" },
       { id := "m4", date := "d", fromAddr := "f", subject := "s4" },
       { id := "m5", date := "d", fromAddr := "f", subject := "s5" },
       { id := "m6", date := "d", fromAddr := "f", subject := "s6" }] }

/-- The suggestion the first thread of `sixThreadSearchResult` produces under
the one-suggestion-per-email oracle below. -/
def firstThreadSuggestion : Suggestion :=
  { id := "gmail-m1", source := .gmail, title := "s1", sourceId := "m1",
    sourceTitle := "s1", sourceFrom := some "f", sourceDate := some "d",
    sourceSnippet := some "" }

/-- Witness for **C4**: with six threads fetched, a produced suggestion's
source is among the first five thread ids. -/
theorem analyze_at_most_first_five_witness :
    firstThreadSuggestion ∈
      analyzeEmails sixThreadSearchResult (fun _ => "") (fun _ => "")
        (fun e => [{ title := e.subject }]) ∧
    ∃ e ∈ (sixThreadSearchResult.data.getD []).take 5,
      firstThreadSuggestion.sourceId = e.id :=
  ⟨by decide,
    (analyze_at_most_first_five sixThreadSearchResult (fun _ => "") (fun _ => "")
        (fun e => [{ title := e.subject }]) { success := false } (fun _ => [])
        "").2.1 firstThreadSuggestion (by decide)⟩

/-- A calendar event used by the per-event-count theorems. -/
def meetingEvent : CalendarEvent :=
  { id := "E0", summary := "mtg", start := { date := some "2026-03-10" } }

/-- An AI oracle that (against the prompt's instruction) returns two
suggestions for every event. -/
def twoSuggestionAi : CalendarEvent → List AiSuggestion :=
  fun _ => [{ title := "prep agenda" }, { title := "book room" }]

/-- A successful one-event fetch result. -/
def meetingEventsResult : GogResult (List CalendarEvent) :=
  { success := true, data := some [meetingEvent] }

/-- **C8** (counterexample).  The claim says `analyzeCalendar` adds at most
one suggestion per analyzed event for every possible AI response; but the
code pushes every entry of the response — when the AI returns two suggestions
for one event, both are returned. -/
theorem analyzeCalendar_exceeds_one_per_event :
    ¬ (((analyzeCalendar meetingEventsResult twoSuggestionAi "2026-03-01").filter
        (fun s => s.sourceId == "E0")).length ≤ 1) := by
  decide

/-- **C8** (amended): for each of the first 5 analyzed items,
`analyzeCalendar` and `analyzeEmails` push exactly one suggestion per entry
of that item's AI response — the one-per-event limit is requested by the
prompt, not enforced in code, while an email may contribute several entries
just the same. -/
theorem analyze_per_item_suggestion_counts
    (eventsResult : GogResult (List CalendarEvent))
    (aiC : CalendarEvent → List AiSuggestion) (today : String)
    (searchResult : GogResult (List EmailThread))
    (dSnip dBody : EmailThread → String)
    (aiE : EmailThread → List AiSuggestion) :
    (∀ events, eventsResult.data = some events → eventsResult.success = true →
      (analyzeCalendar eventsResult aiC today).length =
        ((events.take 5).map (fun e => (aiC e).length)).sum) ∧
    (∀ emails, searchResult.data = some emails → searchResult.success = true →
      (analyzeEmails searchResult dSnip dBody aiE).length =
        ((emails.take 5).map (fun e => (aiE e).length)).sum) := by
  constructor
  · intro events hdat hsucc
    rcases eventsResult with ⟨succ, dat, err⟩
    cases hdat
    cases hsucc
    simp only [analyzeCalendar]
    by_cases h : events.length = 0
    · rw [List.length_eq_zero] at h
      subst h
      simp
    · rw [if_neg h, List.length_flatMap]
      simp [Function.comp_def, List.length_map]
  · intro emails hdat hsucc
    rcases searchResult with ⟨succ, dat, err⟩
    cases hdat
    cases hsucc
    simp only [analyzeEmails]
    by_cases h : emails.length = 0
    · rw [List.length_eq_zero] at h
      subst h
      simp
    · rw [if_neg h, List.length_flatMap]
      simp [Function.comp_def, List.length_map, emailSuggestionsFor]

/-- Witness for the amended **C8**: one event whose AI response has two
entries yields exactly two suggestions. -/
theorem analyze_per_item_suggestion_counts_witness :
    meetingEventsResult.data = some [meetingEvent] ∧
    meetingEventsResult.success = true ∧
    (analyzeCalendar meetingEventsResult twoSuggestionAi "2026-03-01").length =
      (([meetingEvent].take 5).map
        (fun e => (twoSuggestionAi e).length)).sum :=
  ⟨rfl, rfl,
    (analyze_per_item_suggestion_counts meetingEventsResult twoSuggestionAi
        "2026-03-01" { success := false } (fun _ => "") (fun _ => "")
        (fun _ => [])).1 [meetingEvent] rfl rfl⟩

theorem toLocalDateString_ne_empty (d : GDate) : toLocalDateString d ≠ "" := by
  intro h
  have hl := congrArg String.length h
  have hdash : ("-" : String).length = 1 := rfl
  have hemp : ("" : String).length = 0 := rfl
  simp only [toLocalDateString, String.length_append, hdash, hemp] at hl
  omega

/-- **C9**: for a calendar suggestion whose AI response carries no due date,
`analyzeCalendar`'s loop body (`calSuggestionOf`) sets the due date to the
day before the event's `YYYY-MM-DD` date when that date is strictly after
`today` (string comparison), and leaves it unset when the event is today or
earlier.  `d` is the calendar date the event's date string denotes
(`hparse`), and `prevDay` is Gregorian previous-day arithmetic. -/
theorem calendar_due_defaults_to_day_before_event
    (today : String) (event : CalendarEvent) (s : AiSuggestion) (d : GDate)
    (hdue : s.due = none)
    (hparse : parseYMD (toDateString (eventStartKey event)) = some d) :
    (jsStrLt today (toDateString (eventStartKey event)) = true →
      (calSuggestionOf today event s).due =
        some (toLocalDateString (prevDay d))) ∧
    (jsStrLt today (toDateString (eventStartKey event)) = false →
      (calSuggestionOf today event s).due = none) := by
  have hne : (toLocalDateString (prevDay d) == "") = false :=
    beq_eq_false_iff_ne.mpr (toLocalDateString_ne_empty (prevDay d))
  constructor
  · intro hgt
    simp [calSuggestionOf, hdue, jsStrFalsy, hgt, dayBeforeString, hparse,
      jsOptStr, hne]
  · intro hlt
    simp [calSuggestionOf, hdue, jsStrFalsy, hlt, jsOptStr]

/-- An all-day event on 2026-03-15. -/
def marchEvent : CalendarEvent :=
  { id := "E1", summary := "m", start := { date := some "2026-03-15" } }

/-- Witness for **C9**: on 2026-03-09, a no-due suggestion for an event on
2026-03-15 gets due date 2026-03-14. -/
theorem calendar_due_defaults_to_day_before_event_witness :
    parseYMD (toDateString (eventStartKey marchEvent)) = some ⟨2026, 3, 15⟩ ∧
    jsStrLt "2026-03-09" (toDateString (eventStartKey marchEvent)) = true ∧
    (calSuggestionOf "2026-03-09" marchEvent { title := "t" }).due =
      some (toLocalDateString (prevDay ⟨2026, 3, 15⟩)) :=
  ⟨by decide, by decide,
    (calendar_due_defaults_to_day_before_event "2026-03-09" marchEvent
      { title := "t" } ⟨2026, 3, 15⟩ rfl (by decide)).1 (by decide)⟩

/-- A thread returned by the one succeeding account of the partial-failure
scenario. -/
def partialFailureThread : EmailThread :=
  { id := "m1", date := "d1", fromAddr := "x@y", subject := "hi" }

/-- A per-account CLI oracle where account `a` succeeds with one thread and
account `b` fails. -/
def partialFailureExec : String → GogResult EmailSearchResponse := fun account =>
  if account == "a" then
    { success := true, data := some { threads := [partialFailureThread] } }
  else { success := false, error := some "boom" }

/-- **C7** (counterexample).  The claim says the fan-out is all-or-nothing:
any failing account makes the combined call fail with no data.  With accounts
`a` (succeeding, one thread) and `b` (failing), `searchEmailsAllAccounts`
returns success with account `a`'s data. -/
theorem searchEmailsAllAccounts_partial_failure_keeps_data :
    (partialFailureExec "b").success = false ∧
    (searchEmailsAllAccounts ["a", "b"] partialFailureExec (fun _ => 0) 10).success
      = true ∧
    (searchEmailsAllAccounts ["a", "b"] partialFailureExec (fun _ => 0) 10).data =
      some [{ partialFailureThread with account := some "a" }] := by
  refine ⟨rfl, ?_, ?_⟩ <;> decide

/-- **C7** (amended): the fan-out is best-effort.  Failing accounts
contribute their error strings; the combined call fails exactly when the
merged (and, for emails, `maxResults`-sliced) data list is empty and at least
one error string was collected, and then its error is the `'; '`-joined
error strings with no data; otherwise it succeeds with the merged sorted
data, even when some accounts failed. -/
theorem allAccounts_fanout_error_policy
    (accounts : List String)
    (exec : String → GogResult EmailSearchResponse)
    (dateMs : String → ℤ) (maxResults : ℕ)
    (execC : String → GogResult CalendarEventsResponse)
    (hacc : accounts ≠ []) :
    ((searchEmailsAllAccounts accounts exec dateMs maxResults).success = false ↔
      emailFanoutLimited accounts exec dateMs maxResults = [] ∧
      (emailFanoutCollected accounts exec maxResults).2 ≠ []) ∧
    ((searchEmailsAllAccounts accounts exec dateMs maxResults).success = false →
      (searchEmailsAllAccounts accounts exec dateMs maxResults).data = none ∧
      (searchEmailsAllAccounts accounts exec dateMs maxResults).error =
        some (String.intercalate "; "
          (emailFanoutCollected accounts exec maxResults).2)) ∧
    ((searchEmailsAllAccounts accounts exec dateMs maxResults).success = true →
      (searchEmailsAllAccounts accounts exec dateMs maxResults).data =
        some (emailFanoutLimited accounts exec dateMs maxResults)) ∧
    ((getCalendarEventsAllAccounts accounts execC).success = false ↔
      calendarFanoutSorted accounts execC = [] ∧
      (calendarFanoutCollected accounts execC).2 ≠ []) ∧
    ((getCalendarEventsAllAccounts accounts execC).success = false →
      (getCalendarEventsAllAccounts accounts execC).data = none ∧
      (getCalendarEventsAllAccounts accounts execC).error =
        some (String.intercalate "; "
          (calendarFanoutCollected accounts execC).2)) ∧
    ((getCalendarEventsAllAccounts accounts execC).success = true →
      (getCalendarEventsAllAccounts accounts execC).data =
        some (calendarFanoutSorted accounts execC)) := by
  have hlenAcc : ¬ accounts.length = 0 := by
    intro h0
    exact hacc (List.length_eq_zero.mp h0)
  have emailPart :
      ((searchEmailsAllAccounts accounts exec dateMs maxResults).success = false ↔
        emailFanoutLimited accounts exec dateMs maxResults = [] ∧
        (emailFanoutCollected accounts exec maxResults).2 ≠ []) ∧
      ((searchEmailsAllAccounts accounts exec dateMs maxResults).success = false →
        (searchEmailsAllAccounts accounts exec dateMs maxResults).data = none ∧
        (searchEmailsAllAccounts accounts exec dateMs maxResults).error =
          some (String.intercalate "; "
            (emailFanoutCollected accounts exec maxResults).2)) ∧
      ((searchEmailsAllAccounts accounts exec dateMs maxResults).success = true →
        (searchEmailsAllAccounts accounts exec dateMs maxResults).data =
          some (emailFanoutLimited accounts exec dateMs maxResults)) := by
    by_cases hc : (emailFanoutLimited accounts exec dateMs maxResults).length = 0 ∧
        (emailFanoutCollected accounts exec maxResults).2.length ≠ 0
    · have hres : searchEmailsAllAccounts accounts exec dateMs maxResults =
          { success := false,
            error := some (String.intercalate "; "
              (emailFanoutCollected accounts exec maxResults).2) } := by
        unfold searchEmailsAllAccounts
        rw [if_neg hlenAcc, if_pos hc]
      refine ⟨?_, ?_, ?_⟩
      · rw [hres]
        simp only [true_iff]
        exact ⟨List.length_eq_zero.mp hc.1, fun h => hc.2 (by rw [h]; rfl)⟩
      · intro _
        rw [hres]
        exact ⟨rfl, rfl⟩
      · intro hs
        rw [hres] at hs
        exact absurd hs (by simp)
    · have hres : searchEmailsAllAccounts accounts exec dateMs maxResults =
          { success := true,
            data := some (emailFanoutLimited accounts exec dateMs maxResults) } := by
        unfold searchEmailsAllAccounts
        rw [if_neg hlenAcc, if_neg hc]
      refine ⟨?_, ?_, ?_⟩
      · rw [hres]
        simp only [Bool.true_eq_false, false_iff]
        intro hcon
        exact hc ⟨by rw [hcon.1]; rfl, fun h => hcon.2 (List.length_eq_zero.mp h)⟩
      · intro hs
        rw [hres] at hs
        exact absurd hs (by simp)
      · intro _
        rw [hres]
  have calPart :
      ((getCalendarEventsAllAccounts accounts execC).success = false ↔
        calendarFanoutSorted accounts execC = [] ∧
        (calendarFanoutCollected accounts execC).2 ≠ []) ∧
      ((getCalendarEventsAllAccounts accounts execC).success = false →
        (getCalendarEventsAllAccounts accounts execC).data = none ∧
        (getCalendarEventsAllAccounts accounts execC).error =
          some (String.intercalate "; "
            (calendarFanoutCollected accounts execC).2)) ∧
      ((getCalendarEventsAllAccounts accounts execC).success = true →
        (getCalendarEventsAllAccounts accounts execC).data =
          some (calendarFanoutSorted accounts execC)) := by
    by_cases hc : (calendarFanoutSorted accounts execC).length = 0 ∧
        (calendarFanoutCollected accounts execC).2.length ≠ 0
    · have hres : getCalendarEventsAllAccounts accounts execC =
          { success := false,
            error := some (String.intercalate "; "
              (calendarFanoutCollected accounts execC).2) } := by
        unfold getCalendarEventsAllAccounts
        rw [if_neg hlenAcc, if_pos hc]
      refine ⟨?_, ?_, ?_⟩
      · rw [hres]
        simp only [true_iff]
        exact ⟨List.length_eq_zero.mp hc.1, fun h => hc.2 (by rw [h]; rfl)⟩
      · intro _
        rw [hres]
        exact ⟨rfl, rfl⟩
      · intro hs
        rw [hres] at hs
        exact absurd hs (by simp)
    · have hres : getCalendarEventsAllAccounts accounts execC =
          { success := true,
            data := some (calendarFanoutSorted accounts execC) } := by
        unfold getCalendarEventsAllAccounts
        rw [if_neg hlenAcc, if_neg hc]
      refine ⟨?_, ?_, ?_⟩
      · rw [hres]
        simp only [Bool.true_eq_false, false_iff]
        intro hcon
        exact hc ⟨by rw [hcon.1]; rfl, fun h => hcon.2 (List.length_eq_zero.mp h)⟩
      · intro hs
        rw [hres] at hs
        exact absurd hs (by simp)
      · intro _
        rw [hres]
  exact ⟨emailPart.1, emailPart.2.1, emailPart.2.2,
    calPart.1, calPart.2.1, calPart.2.2⟩

/-- A per-account email CLI oracle where every account fails. -/
def failingEmailExec : String → GogResult EmailSearchResponse :=
  fun _ => { success := false, error := some "boom" }

/-- A per-account calendar CLI oracle where every account fails. -/
def failingCalendarExec : String → GogResult CalendarEventsResponse :=
  fun _ => { success := false, error := some "down" }

/-- Witness for the amended **C7**: with one configured account whose fetch
fails, the combined email search fails. -/
theorem allAccounts_fanout_error_policy_witness :
    (["a"] : List String) ≠ [] ∧
    ((searchEmailsAllAccounts ["a"] failingEmailExec (fun _ => 0) 10).success
        = false ↔
      emailFanoutLimited ["a"] failingEmailExec (fun _ => 0) 10 = [] ∧
      (emailFanoutCollected ["a"] failingEmailExec 10).2 ≠ []) :=
  ⟨by decide,
    (allAccounts_fanout_error_policy ["a"] failingEmailExec (fun _ => 0) 10
      failingCalendarExec (by decide)).1⟩

end TaskManage
